import Mathlib

/-!
# Offline synchronization / conflict resolution subsystem

Shallow embedding of the `OfflineSyncService` class (offline sync queue,
per-entity conflict detection, batch sync executor, conflict resolver)
together with the relevant parts of the database schema (`offline_sync`
table and the four entity tables `bills`, `customers`, `products`,
`payments`).

Modelling conventions:
* Timestamps are natural numbers.  A JavaScript `Date` that may be invalid
  (`new Date('')`, `new Date(<unparsable>)` give `NaN`) is modelled as
  `Option Nat`, with `none` standing for an invalid date.  Comparison of two
  possibly-invalid dates (`serverUpdatedAt > clientUpdatedAt`) is `jsGt`:
  any `NaN` operand makes the comparison false, exactly as in JavaScript.
* A JSON payload (`operation.data`) is modelled by `Payload`: each field is
  `Option`-valued — `none` means the field is absent from the JSON object.
  The `updatedAt` field is `Option (Option Nat)`: absent, or present with
  its parse result (`some none` = present but unparsable).  All remaining
  fields are collapsed into one opaque `content` field.
* Database rows of an entity table are `EntityRecord`s; a table is a list of
  rows.  `db.update(t).set(d).where(eq(t.id, rid))` sets exactly the columns
  present in `d` on every row whose id is `rid` (`applySet`); `db.delete`
  removes them; `db.insert` appends (a duplicate explicit primary key makes
  the insert fail, surfacing as a caught error; a missing id is filled from
  the `defaultRandom()` generator, modelled by a fresh counter).
* The asynchronous methods are pure state transformers on `DB`; `now` is the
  value `new Date()` would produce, passed explicitly.
-/

namespace OfflineSync

/-- Status enum of the `offline_sync.status` column (`SyncStatusEnum`):
`pending`, `synced`, `failed`, `conflict`. -/
inductive SyncStatus
  | pending
  | synced
  | failed
  | conflict
  deriving DecidableEq, Repr

/-- Conflict-resolution policy accepted by `resolveConflict`. -/
inductive Resolution
  | use_server
  | use_client
  | merge
  deriving DecidableEq, Repr

/-- A JSON payload as stored in `offline_sync.data` and applied by the
executor.  `none` in a field means the field is absent from the JSON object;
`updatedAt = some none` means the field is present but does not parse as a
date. -/
structure Payload where
  id : Option String := none
  updatedAt : Option (Option Nat) := none
  content : Option String := none
  deriving DecidableEq, Repr

/-- A row of one of the four entity tables (`bills`, `customers`,
`products`, `payments`).  Each carries at least `id` and a nullable
`updated_at` column; the other columns are collapsed into `content`. -/
structure EntityRecord where
  id : String
  updatedAt : Option Nat
  content : String
  deriving DecidableEq, Repr

/-- A row of the `offline_sync` table. -/
structure SyncRow where
  id : String
  userId : Nat
  companyId : Option String
  tableName : String
  recordId : String
  operation : String
  data : Payload
  status : SyncStatus
  deviceId : Option String
  conflictData : Option EntityRecord
  createdAt : Nat
  syncedAt : Option Nat
  deriving DecidableEq, Repr

/-- The in-memory `SyncOperation` interface value built from an
`offline_sync` row (or assembled by `resolveConflict` when re-driving). -/
structure SyncOperation where
  id : String
  tableName : String
  recordId : String
  operation : String
  data : Payload
  status : SyncStatus
  deviceId : Option String := none
  conflictData : Option EntityRecord := none
  deriving DecidableEq, Repr

/-- The result record returned by `syncOperations`. -/
structure SyncResult where
  success : Bool
  synced : Nat
  failed : Nat
  conflicts : Nat
  errors : List String
  deriving DecidableEq, Repr

/-- The result shape of `syncSingleOperation` / the per-entity handlers:
`{ success, conflict?, conflictData?, error? }`. -/
structure ExecResult where
  success : Bool
  conflict : Bool := false
  conflictData : Option EntityRecord := none
  error : Option String := none
  deriving DecidableEq, Repr

/-- The whole database state: the four entity tables, the `offline_sync`
table, and the fresh-uuid counter standing for `defaultRandom()`. -/
structure DB where
  bills : List EntityRecord
  customers : List EntityRecord
  products : List EntityRecord
  payments : List EntityRecord
  sync : List SyncRow
  fresh : Nat := 0
  deriving DecidableEq, Repr

/-- JavaScript comparison `a > b` on two possibly-invalid `Date`s: an invalid
date has value `NaN` and any comparison involving `NaN` is false. -/
def jsGt : Option Nat → Option Nat → Bool
  | some a, some b => decide (b < a)
  | _, _ => false

/-- `new Date(field || '')` on a JSON field: an absent field falls back to
`''` (an invalid date), a present field keeps its parse result. -/
def jsDate : Option (Option Nat) → Option Nat
  | some v => v
  | none => none

/-- JavaScript `x || undefined` on an optional string: the empty string is
falsy and is mapped to `undefined`. -/
def jsOrUndefined : Option String → Option String
  | some "" => none
  | x => x

/-- The uuid produced by `defaultRandom()` for the `n`-th generated id. -/
def genId (n : Nat) : String := "uuid-" ++ toString n

/-- `db.insert(table).values(d)`: the inserted row takes the columns present
in `d`; a missing `updated_at` is filled by `defaultNow()`, a missing id by
`defaultRandom()` (handled by the caller). -/
def payloadToRecord (rid : String) (now : Nat) (d : Payload) : EntityRecord :=
  { id := rid
    updatedAt := match d.updatedAt with
      | some v => v
      | none => some now
    content := d.content.getD "" }

/-- `db.update(table).set(d)` on one row: exactly the columns present in the
payload are overwritten, the rest keep their values. -/
def applySet (r : EntityRecord) (d : Payload) : EntityRecord :=
  { id := d.id.getD r.id
    updatedAt := match d.updatedAt with
      | some v => v
      | none => r.updatedAt
    content := d.content.getD r.content }

/-- The shared body of `syncBill` / `syncCustomer` / `syncProduct` /
`syncPayment`: the four handlers in the source are textually identical up to
the entity table they touch and the noun in the not-found message.  Returns
the handler result together with the updated table and fresh counter.

For `create` the data is inserted unconditionally (a duplicate explicit
primary key fails as an ordinary execution failure).  For `update` the
current record is fetched; a missing record is a failure (`<noun> not
found`), otherwise `serverUpdatedAt > clientUpdatedAt` (JS semantics, see
`jsGt`) signals a conflict carrying the full server record, and otherwise
the payload is applied.  For `delete` the rows with the record id are
removed unconditionally. -/
def syncEntityTable (noun : String) (op : SyncOperation) (now : Nat)
    (table : List EntityRecord) (fresh : Nat) :
    ExecResult × List EntityRecord × Nat :=
  if op.operation = "create" then
    match op.data.id with
    | some i =>
        if table.any (fun r => r.id == i) then
          ({ success := false,
             error := some "duplicate key value violates unique constraint" },
           table, fresh)
        else
          ({ success := true }, table ++ [payloadToRecord i now op.data], fresh)
    | none =>
        ({ success := true },
         table ++ [payloadToRecord (genId fresh) now op.data], fresh + 1)
  else if op.operation = "update" then
    match table.find? (fun r => r.id == op.recordId) with
    | none => ({ success := false, error := some (noun ++ " not found") }, table, fresh)
    | some existing =>
        let serverUpdatedAt := existing.updatedAt
        let clientUpdatedAt := jsDate op.data.updatedAt
        if jsGt serverUpdatedAt clientUpdatedAt then
          ({ success := false, conflict := true, conflictData := some existing },
           table, fresh)
        else
          ({ success := true },
           table.map (fun r => if r.id == op.recordId then applySet r op.data else r),
           fresh)
  else if op.operation = "delete" then
    ({ success := true }, table.filter (fun r => !(r.id == op.recordId)), fresh)
  else
    ({ success := false, error := some "Invalid operation" }, table, fresh)

/-- `OfflineSyncService.syncBill`. -/
def syncBill (op : SyncOperation) (now : Nat) (db : DB) : ExecResult × DB :=
  let out := syncEntityTable "Bill" op now db.bills db.fresh
  (out.1, { db with bills := out.2.1, fresh := out.2.2 })

/-- `OfflineSyncService.syncCustomer`. -/
def syncCustomer (op : SyncOperation) (now : Nat) (db : DB) : ExecResult × DB :=
  let out := syncEntityTable "Customer" op now db.customers db.fresh
  (out.1, { db with customers := out.2.1, fresh := out.2.2 })

/-- `OfflineSyncService.syncProduct`. -/
def syncProduct (op : SyncOperation) (now : Nat) (db : DB) : ExecResult × DB :=
  let out := syncEntityTable "Product" op now db.products db.fresh
  (out.1, { db with products := out.2.1, fresh := out.2.2 })

/-- `OfflineSyncService.syncPayment`. -/
def syncPayment (op : SyncOperation) (now : Nat) (db : DB) : ExecResult × DB :=
  let out := syncEntityTable "Payment" op now db.payments db.fresh
  (out.1, { db with payments := out.2.1, fresh := out.2.2 })

/-- `OfflineSyncService.syncSingleOperation`: dispatch on `tableName`, with
unknown table names failing with an `Unsupported table` error. -/
def syncSingleOperation (op : SyncOperation) (now : Nat) (db : DB) :
    ExecResult × DB :=
  if op.tableName = "bills" then syncBill op now db
  else if op.tableName = "customers" then syncCustomer op now db
  else if op.tableName = "products" then syncProduct op now db
  else if op.tableName = "payments" then syncPayment op now db
  else ({ success := false, error := some ("Unsupported table: " ++ op.tableName) }, db)

/-- `OfflineSyncService.updateSyncStatus`: sets `status` on the rows with the
given sync id, stamps `syncedAt` when the new status is `synced`, and sets
`conflictData` only when a (truthy) snapshot is passed — a previously stored
`conflictData` is never cleared. -/
def updateSyncStatus (syncId : String) (status : SyncStatus)
    (conflictData : Option EntityRecord) (now : Nat) (db : DB) : DB :=
  { db with
    sync := db.sync.map fun row =>
      if row.id == syncId then
        { row with
          status := status
          syncedAt := if status = SyncStatus.synced then some now else row.syncedAt
          conflictData := match conflictData with
            | some c => some c
            | none => row.conflictData }
      else row }

/-- The filter of `getPendingSyncOperations`: rows of the caller with status
`pending`; when a company id is supplied it must match as well. -/
def rowMatches (userId : Nat) (companyId : Option String) (row : SyncRow) : Bool :=
  match companyId with
  | some c =>
      row.userId == userId && row.companyId == some c && row.status == SyncStatus.pending
  | none => row.userId == userId && row.status == SyncStatus.pending

/-- The `select ... where ... orderBy(offlineSync.createdAt)` of
`getPendingSyncOperations`: the matching rows ordered by `createdAt`
ascending. -/
def pendingRows (userId : Nat) (companyId : Option String) (db : DB) :
    List SyncRow :=
  List.insertionSort (fun a b => a.createdAt ≤ b.createdAt)
    (db.sync.filter (rowMatches userId companyId))

/-- The row-to-interface mapping applied by `getPendingSyncOperations`:
`deviceId: op.deviceId || undefined`, `conflictData: op.conflictData ||
undefined`. -/
def rowToOperation (row : SyncRow) : SyncOperation :=
  { id := row.id
    tableName := row.tableName
    recordId := row.recordId
    operation := row.operation
    data := row.data
    status := row.status
    deviceId := jsOrUndefined row.deviceId
    conflictData := row.conflictData }

/-- `OfflineSyncService.getPendingSyncOperations`. -/
def getPendingSyncOperations (userId : Nat) (companyId : Option String)
    (db : DB) : List SyncOperation :=
  (pendingRows userId companyId db).map rowToOperation

/-- The body of the `for` loop of `syncOperations`: execute one operation,
record its outcome in the `offline_sync` table, and bump exactly one of the
three counters (`synced` on success, `conflicts` on a detected conflict —
storing the conflict snapshot — and `failed` otherwise, appending the error
message). -/
def processOperation (now : Nat) (acc : SyncResult × DB) (op : SyncOperation) :
    SyncResult × DB :=
  let rd := syncSingleOperation op now acc.2
  if rd.1.success then
    ({ acc.1 with synced := acc.1.synced + 1 },
     updateSyncStatus op.id SyncStatus.synced none now rd.2)
  else if rd.1.conflict then
    ({ acc.1 with conflicts := acc.1.conflicts + 1 },
     updateSyncStatus op.id SyncStatus.conflict rd.1.conflictData now rd.2)
  else
    ({ acc.1 with
        failed := acc.1.failed + 1
        errors := acc.1.errors ++ [rd.1.error.getD "Unknown error"] },
     updateSyncStatus op.id SyncStatus.failed none now rd.2)

/-- `OfflineSyncService.syncOperations`: drain the pending operations of the
caller in order, process each, and finally set `success := failed == 0`. -/
def syncOperations (userId : Nat) (companyId : String) (now : Nat) (db : DB) :
    SyncResult × DB :=
  let pending := getPendingSyncOperations userId (some companyId) db
  let init : SyncResult :=
    { success := true, synced := 0, failed := 0, conflicts := 0, errors := [] }
  let out := pending.foldl (processOperation now) (init, db)
  ({ out.1 with success := out.1.failed == 0 }, out.2)

/-- `OfflineSyncService.resolveConflict`: look the sync row up; a missing row
or a row not in `conflict` status yields `false` with no state change.
`use_server` marks the row `synced`.  `use_client` re-drives the original
operation through `syncSingleOperation` and marks the row `synced` or
`failed` according to the outcome.  `merge` without `mergedData` yields
`false`; with it, an `update` carrying the merged payload is re-driven the
same way.  In every executed branch the method returns `true`. -/
def resolveConflict (syncId : String) (resolution : Resolution)
    (mergedData : Option Payload) (now : Nat) (db : DB) : Bool × DB :=
  match db.sync.find? (fun row => row.id == syncId) with
  | none => (false, db)
  | some syncRecord =>
    if syncRecord.status ≠ SyncStatus.conflict then (false, db)
    else
      match resolution with
      | Resolution.use_server =>
          (true, updateSyncStatus syncId SyncStatus.synced none now db)
      | Resolution.use_client =>
          let operation : SyncOperation :=
            { id := syncRecord.id
              tableName := syncRecord.tableName
              recordId := syncRecord.recordId
              operation := syncRecord.operation
              data := syncRecord.data
              status := SyncStatus.pending }
          let rd := syncSingleOperation operation now db
          if rd.1.success then
            (true, updateSyncStatus syncId SyncStatus.synced none now rd.2)
          else
            (true, updateSyncStatus syncId SyncStatus.failed none now rd.2)
      | Resolution.merge =>
          match mergedData with
          | none => (false, db)
          | some md =>
            let mergeOperation : SyncOperation :=
              { id := syncRecord.id
                tableName := syncRecord.tableName
                recordId := syncRecord.recordId
                operation := "update"
                data := md
                status := SyncStatus.pending }
            let rd := syncSingleOperation mergeOperation now db
            if rd.1.success then
              (true, updateSyncStatus syncId SyncStatus.synced none now rd.2)
            else
              (true, updateSyncStatus syncId SyncStatus.failed none now rd.2)


/-! ## Concrete states used to exercise the definitions -/

/-- A server-side bill `B1` last written at time 2. -/
def bill1 : EntityRecord := { id := "B1", updatedAt := some 2, content := "server-v2" }

/-- A client payload for `B1` whose base version timestamp is 1 — older than
the server's. -/
def staleData : Payload :=
  { id := some "B1", updatedAt := some (some 1), content := some "client-v1" }

/-- An `offline_sync` row for the stale update of `B1`, already in `conflict`
status with the server snapshot stored. -/
def rowConflict : SyncRow :=
  { id := "op1", userId := 1, companyId := some "co", tableName := "bills",
    recordId := "B1", operation := "update", data := staleData,
    status := SyncStatus.conflict, deviceId := none, conflictData := some bill1,
    createdAt := 0, syncedAt := none }

/-- A database holding `B1` and the conflicted sync row. -/
def dbConflict : DB :=
  { bills := [bill1], customers := [], products := [], payments := [],
    sync := [rowConflict], fresh := 0 }

/-- The same stale update of `B1`, still `pending` (before any sync pass). -/
def rowPending : SyncRow :=
  { rowConflict with status := SyncStatus.pending, conflictData := none }

/-- A database holding `B1` and the pending stale update. -/
def dbPending : DB := { dbConflict with sync := [rowPending] }

/-- A database with no rows at all. -/
def dbEmpty : DB :=
  { bills := [], customers := [], products := [], payments := [], sync := [], fresh := 0 }

/-- A client payload for `B1` whose base version timestamp is 5 — newer than
the server's. -/
def freshData : Payload :=
  { id := some "B1", updatedAt := some (some 5), content := some "client-v5" }

/-- A pending update of `B1` carrying the newer client payload. -/
def rowPendingFresh : SyncRow :=
  { rowPending with id := "op2", data := freshData }

/-- A database holding `B1` and the pending non-stale update. -/
def dbPendingFresh : DB := { dbConflict with sync := [rowPendingFresh] }

/-- A client payload for `B1` with no `updatedAt` field at all. -/
def noTsData : Payload := { id := some "B1", content := some "client-nots" }

/-- An update operation whose payload lacks a parsable `updatedAt`. -/
def opNoTs : SyncOperation :=
  { id := "op3", tableName := "bills", recordId := "B1", operation := "update",
    data := noTsData, status := SyncStatus.pending }

/-- The accumulator `syncOperations` starts from. -/
def initResult : SyncResult :=
  { success := true, synced := 0, failed := 0, conflicts := 0, errors := [] }

/-! ## Helper lemmas about the executor -/

/-- An update against an existing record whose comparison signals staleness
returns a conflict carrying the full server record and leaves the table
untouched. -/
theorem syncEntityTable_update_conflict (noun : String) (op : SyncOperation)
    (now fresh : Nat) (table : List EntityRecord) (r : EntityRecord)
    (hop : op.operation = "update")
    (hfind : table.find? (fun x => x.id == op.recordId) = some r)
    (hgt : jsGt r.updatedAt (jsDate op.data.updatedAt) = true) :
    syncEntityTable noun op now table fresh =
      ({ success := false, conflict := true, conflictData := some r }, table, fresh) := by
  simp [syncEntityTable, hop, hfind, hgt]

/-- An update against an existing record whose comparison does not signal
staleness is applied to the table and succeeds. -/
theorem syncEntityTable_update_apply (noun : String) (op : SyncOperation)
    (now fresh : Nat) (table : List EntityRecord) (r : EntityRecord)
    (hop : op.operation = "update")
    (hfind : table.find? (fun x => x.id == op.recordId) = some r)
    (hgt : jsGt r.updatedAt (jsDate op.data.updatedAt) = false) :
    syncEntityTable noun op now table fresh =
      ({ success := true },
       table.map (fun x => if x.id == op.recordId then applySet x op.data else x),
       fresh) := by
  simp [syncEntityTable, hop, hfind, hgt]

/-- Dispatching a stale `bills` update through `syncSingleOperation` yields
the conflict result and leaves the whole database unchanged. -/
theorem syncSingle_bills_update_conflict (op : SyncOperation) (now : Nat)
    (db : DB) (r : EntityRecord)
    (hop : op.operation = "update") (htn : op.tableName = "bills")
    (hfind : db.bills.find? (fun x => x.id == op.recordId) = some r)
    (hgt : jsGt r.updatedAt (jsDate op.data.updatedAt) = true) :
    syncSingleOperation op now db =
      ({ success := false, conflict := true, conflictData := some r }, db) := by
  have h := syncEntityTable_update_conflict "Bill" op now db.fresh db.bills r hop hfind hgt
  simp [syncSingleOperation, syncBill, htn, h]

/-- Dispatching a non-stale `bills` update through `syncSingleOperation`
applies the payload to the `bills` table and succeeds. -/
theorem syncSingle_bills_update_apply (op : SyncOperation) (now : Nat)
    (db : DB) (r : EntityRecord)
    (hop : op.operation = "update") (htn : op.tableName = "bills")
    (hfind : db.bills.find? (fun x => x.id == op.recordId) = some r)
    (hgt : jsGt r.updatedAt (jsDate op.data.updatedAt) = false) :
    syncSingleOperation op now db =
      ({ success := true },
       { db with
          bills := db.bills.map fun x =>
            if x.id == op.recordId then applySet x op.data else x }) := by
  have h := syncEntityTable_update_apply "Bill" op now db.fresh db.bills r hop hfind hgt
  simp [syncSingleOperation, syncBill, htn, h]

/-- `updateSyncStatus` touches only the `offline_sync` table: the four entity
tables and the fresh counter are unchanged. -/
theorem updateSyncStatus_entities (syncId : String) (status : SyncStatus)
    (cd : Option EntityRecord) (now : Nat) (db : DB) :
    (updateSyncStatus syncId status cd now db).bills = db.bills ∧
    (updateSyncStatus syncId status cd now db).customers = db.customers ∧
    (updateSyncStatus syncId status cd now db).products = db.products ∧
    (updateSyncStatus syncId status cd now db).payments = db.payments ∧
    (updateSyncStatus syncId status cd now db).fresh = db.fresh :=
  ⟨rfl, rfl, rfl, rfl, rfl⟩

/-- After `updateSyncStatus`, every row carrying the targeted sync id has the
new status. -/
theorem updateSyncStatus_status_of_mem (syncId : String) (status : SyncStatus)
    (cd : Option EntityRecord) (now : Nat) (db : DB) {x : SyncRow}
    (hx : x ∈ (updateSyncStatus syncId status cd now db).sync)
    (hid : x.id = syncId) : x.status = status := by
  simp only [updateSyncStatus, List.mem_map] at hx
  rcases hx with ⟨row, hrow, hfx⟩
  subst hfx
  by_cases h : row.id = syncId
  · simp [h]
  · simp [h] at hid

/-- Each loop iteration of `syncOperations` bumps exactly one of the three
counters. -/
theorem processOperation_counts (now : Nat) (acc : SyncResult × DB)
    (op : SyncOperation) :
    (processOperation now acc op).1.synced + (processOperation now acc op).1.failed +
      (processOperation now acc op).1.conflicts =
      acc.1.synced + acc.1.failed + acc.1.conflicts + 1 := by
  simp only [processOperation]
  split
  · simp
    omega
  · split
    · simp
      omega
    · simp
      omega

/-- Folding the loop body over a list of operations adds the list's length to
the combined counters. -/
theorem foldl_processOperation_counts (now : Nat) (ops : List SyncOperation) :
    ∀ acc : SyncResult × DB,
      (ops.foldl (processOperation now) acc).1.synced +
        (ops.foldl (processOperation now) acc).1.failed +
        (ops.foldl (processOperation now) acc).1.conflicts =
        acc.1.synced + acc.1.failed + acc.1.conflicts + ops.length := by
  induction ops with
  | nil => intro acc; simp
  | cons op rest ih =>
      intro acc
      have h1 := processOperation_counts now acc op
      have h2 := ih (processOperation now acc op)
      simp only [List.foldl_cons, List.length_cons]
      omega

instance : IsTotal SyncRow (fun a b => a.createdAt ≤ b.createdAt) :=
  ⟨fun a b => Nat.le_total a.createdAt b.createdAt⟩

instance : IsTrans SyncRow (fun a b => a.createdAt ≤ b.createdAt) :=
  ⟨fun _ _ _ h1 h2 => Nat.le_trans h1 h2⟩

/-! ## Claims -/

/-- C1: for every queued update operation on an existing record, the executor
compares the server record's `updatedAt` with the incoming `data.updatedAt`:
if the server timestamp is strictly greater the result is a conflict whose
`conflictData` is the full current server record and the entity table is not
modified; if the server timestamp is less than or equal, the update is
applied to the entity table and the operation succeeds. -/
theorem C1_conflict_detection (noun : String) (op : SyncOperation)
    (now fresh : Nat) (table : List EntityRecord) (r : EntityRecord) (st ct : Nat)
    (hop : op.operation = "update")
    (hfind : table.find? (fun x => x.id == op.recordId) = some r)
    (hs : r.updatedAt = some st) (hc : op.data.updatedAt = some (some ct)) :
    (ct < st →
      syncEntityTable noun op now table fresh =
        ({ success := false, conflict := true, conflictData := some r }, table, fresh)) ∧
    (st ≤ ct →
      syncEntityTable noun op now table fresh =
        ({ success := true },
         table.map (fun x => if x.id == op.recordId then applySet x op.data else x),
         fresh)) := by
  constructor
  · intro h
    refine syncEntityTable_update_conflict noun op now fresh table r hop hfind ?_
    rw [hs, hc]
    simpa [jsGt, jsDate] using h
  · intro h
    refine syncEntityTable_update_apply noun op now fresh table r hop hfind ?_
    rw [hs, hc]
    simp [jsGt, jsDate]
    omega

/-- Witness for C1 at a concrete state: the stale update of `B1` (client
base 1, server 2) is detected as a conflict carrying the server record. -/
theorem C1_conflict_detection_witness :
    syncEntityTable "Bill" (rowToOperation rowConflict) 10 [bill1] 0 =
      ({ success := false, conflict := true, conflictData := some bill1 }, [bill1], 0) :=
  (C1_conflict_detection "Bill" (rowToOperation rowConflict) 10 0 [bill1] bill1 2 1
    rfl (by decide) rfl rfl).1 (by decide)

/-- C2 counterexample: a pending update of `B1` with `data.updatedAt = 1`
while the server record has `updatedAt = 2` — so `data.updatedAt <=
server.updatedAt` holds — is NOT applied and NOT marked `synced`: the sync
pass classifies it as a conflict and leaves the `bills` table unchanged. -/
theorem C2_counterexample :
    bill1.updatedAt = some 2 ∧ rowPending.data.updatedAt = some (some 1) ∧
    (1 : Nat) ≤ 2 ∧
    (syncOperations 1 "co" 10 dbPending).1.synced = 0 ∧
    (syncOperations 1 "co" 10 dbPending).1.conflicts = 1 ∧
    (syncOperations 1 "co" 10 dbPending).2.bills = [bill1] ∧
    ∀ x ∈ (syncOperations 1 "co" 10 dbPending).2.sync,
      x.status = SyncStatus.conflict := by
  decide

/-- C2 (amended): for every update operation whose payload timestamp
satisfies `server.updatedAt <= data.updatedAt`, executing the operation
applies the update to the entity store and sets the operation's status to
`synced`. -/
theorem C2_apply_and_mark_synced (op : SyncOperation) (now : Nat)
    (res : SyncResult) (db : DB) (r : EntityRecord) (st ct : Nat)
    (hop : op.operation = "update") (htn : op.tableName = "bills")
    (hfind : db.bills.find? (fun x => x.id == op.recordId) = some r)
    (hs : r.updatedAt = some st) (hc : op.data.updatedAt = some (some ct))
    (hle : st ≤ ct) :
    (processOperation now (res, db) op).1.synced = res.synced + 1 ∧
    (processOperation now (res, db) op).2.bills =
      db.bills.map (fun x => if x.id == op.recordId then applySet x op.data else x) ∧
    ∀ x ∈ (processOperation now (res, db) op).2.sync,
      x.id = op.id → x.status = SyncStatus.synced := by
  have hgt : jsGt r.updatedAt (jsDate op.data.updatedAt) = false := by
    rw [hs, hc]
    simp [jsGt, jsDate]
    omega
  have hexec := syncSingle_bills_update_apply op now db r hop htn hfind hgt
  have hpo : processOperation now (res, db) op =
      ({ res with synced := res.synced + 1 },
       updateSyncStatus op.id SyncStatus.synced none now
         { db with
            bills := db.bills.map fun x =>
              if x.id == op.recordId then applySet x op.data else x }) := by
    simp [processOperation, hexec]
  rw [hpo]
  exact ⟨rfl, rfl, fun x hx hid => updateSyncStatus_status_of_mem _ _ _ _ _ hx hid⟩

/-- Witness for the amended C2: a pending update of `B1` with client base 5
against server time 2 is applied and its row marked `synced`. -/
theorem C2_apply_and_mark_synced_witness :
    (processOperation 10 (initResult, dbPendingFresh) (rowToOperation rowPendingFresh)).1.synced =
      initResult.synced + 1 ∧
    (processOperation 10 (initResult, dbPendingFresh) (rowToOperation rowPendingFresh)).2.bills =
      dbPendingFresh.bills.map (fun x =>
        if x.id == (rowToOperation rowPendingFresh).recordId then
          applySet x (rowToOperation rowPendingFresh).data
        else x) ∧
    ∀ x ∈ (processOperation 10 (initResult, dbPendingFresh) (rowToOperation rowPendingFresh)).2.sync,
      x.id = (rowToOperation rowPendingFresh).id → x.status = SyncStatus.synced :=
  C2_apply_and_mark_synced (rowToOperation rowPendingFresh) 10 initResult dbPendingFresh
    bill1 2 5 rfl rfl (by decide) rfl rfl (by decide)

/-- C5: for every batch sync pass the returned result satisfies
`synced + failed + conflicts = number of pending operations processed`, and
`success` is true iff `failed = 0`. -/
theorem C5_sync_result_counts (userId : Nat) (companyId : String) (now : Nat)
    (db : DB) :
    (syncOperations userId companyId now db).1.synced +
      (syncOperations userId companyId now db).1.failed +
      (syncOperations userId companyId now db).1.conflicts =
      (getPendingSyncOperations userId (some companyId) db).length ∧
    ((syncOperations userId companyId now db).1.success = true ↔
      (syncOperations userId companyId now db).1.failed = 0) := by
  have h := foldl_processOperation_counts now
      (getPendingSyncOperations userId (some companyId) db)
      ({ success := true, synced := 0, failed := 0, conflicts := 0, errors := [] }, db)
  constructor
  · simpa [syncOperations] using h
  · simp [syncOperations]

/-- C10: an update whose payload has a missing or unparsable `data.updatedAt`
never compares greater on the server side (the JS comparison with an invalid
date is always false), so against any existing server record — however new —
the update is applied and the operation succeeds, never a conflict. -/
theorem C10_invalid_timestamp_applies (noun : String) (op : SyncOperation)
    (now fresh : Nat) (table : List EntityRecord) (r : EntityRecord)
    (hop : op.operation = "update")
    (hfind : table.find? (fun x => x.id == op.recordId) = some r)
    (hinv : jsDate op.data.updatedAt = none) :
    syncEntityTable noun op now table fresh =
      ({ success := true },
       table.map (fun x => if x.id == op.recordId then applySet x op.data else x),
       fresh) := by
  have hgt : jsGt r.updatedAt (jsDate op.data.updatedAt) = false := by
    rw [hinv]
    cases r.updatedAt <;> rfl
  exact syncEntityTable_update_apply noun op now fresh table r hop hfind hgt

/-- Witness for C10: an update of `B1` whose payload has no `updatedAt` is
applied even though the server record carries timestamp 2. -/
theorem C10_invalid_timestamp_applies_witness :
    syncEntityTable "Bill" opNoTs 10 [bill1] 0 =
      ({ success := true },
       [bill1].map (fun x =>
         if x.id == opNoTs.recordId then applySet x opNoTs.data else x),
       0) :=
  C10_invalid_timestamp_applies "Bill" opNoTs 10 0 [bill1] bill1 rfl (by decide) rfl

/-- C3 counterexample: resolving the conflicted stale update of `B1` with
`use_client` does NOT re-apply the data unconditionally — the re-driven
execution re-detects the conflict, the `bills` table is left unchanged, and
the operation's status becomes `failed` (the call still returns `true`). -/
theorem C3_counterexample :
    (resolveConflict "op1" Resolution.use_client none 10 dbConflict).1 = true ∧
    (resolveConflict "op1" Resolution.use_client none 10 dbConflict).2.bills = [bill1] ∧
    ∀ x ∈ (resolveConflict "op1" Resolution.use_client none 10 dbConflict).2.sync,
      x.status = SyncStatus.failed := by
  decide

/-- C3 (amended): resolving a conflicted operation with `use_client`
re-drives the original operation through the executor INCLUDING conflict
re-detection; when the server record is still strictly newer than the
original payload's `updatedAt`, the conflict is re-detected, the entity
store is not modified, and the operation's status becomes `failed` (the call
returns `true`). -/
theorem C3_use_client_redetects (syncId : String) (md : Option Payload)
    (now : Nat) (db : DB) (row : SyncRow) (r : EntityRecord) (st ct : Nat)
    (hfind : db.sync.find? (fun x => x.id == syncId) = some row)
    (hst : row.status = SyncStatus.conflict)
    (hop : row.operation = "update") (htn : row.tableName = "bills")
    (hrec : db.bills.find? (fun x => x.id == row.recordId) = some r)
    (hsrv : r.updatedAt = some st) (hcli : row.data.updatedAt = some (some ct))
    (hstale : ct < st) :
    (resolveConflict syncId Resolution.use_client md now db).1 = true ∧
    (resolveConflict syncId Resolution.use_client md now db).2.bills = db.bills ∧
    ∀ x ∈ (resolveConflict syncId Resolution.use_client md now db).2.sync,
      x.id = syncId → x.status = SyncStatus.failed := by
  have hgt : jsGt r.updatedAt (jsDate row.data.updatedAt) = true := by
    rw [hsrv, hcli]
    simpa [jsGt, jsDate] using hstale
  have hexec := syncSingle_bills_update_conflict
      { id := row.id, tableName := row.tableName, recordId := row.recordId,
        operation := row.operation, data := row.data, status := SyncStatus.pending }
      now db r hop htn hrec hgt
  have hres : resolveConflict syncId Resolution.use_client md now db =
      (true, updateSyncStatus syncId SyncStatus.failed none now db) := by
    unfold resolveConflict
    rw [hfind]
    simp [hst, hexec]
  rw [hres]
  exact ⟨rfl, rfl, fun x hx hid => updateSyncStatus_status_of_mem _ _ _ _ _ hx hid⟩

/-- Witness for the amended C3 at the concrete conflicted state. -/
theorem C3_use_client_redetects_witness :
    (resolveConflict "op1" Resolution.use_client none 10 dbConflict).1 = true ∧
    (resolveConflict "op1" Resolution.use_client none 10 dbConflict).2.bills =
      dbConflict.bills ∧
    ∀ x ∈ (resolveConflict "op1" Resolution.use_client none 10 dbConflict).2.sync,
      x.id = "op1" → x.status = SyncStatus.failed :=
  C3_use_client_redetects "op1" none 10 dbConflict rowConflict bill1 2 1
    (by decide) rfl rfl rfl (by decide) rfl rfl (by decide)

/-- C4 counterexample: after resolving the conflicted operation with
`use_server` its status is `synced` yet `conflictData` is still set — the
claimed "`conflictData` iff status `conflict`" invariant fails. -/
theorem C4_counterexample :
    ∃ x ∈ (resolveConflict "op1" Resolution.use_server none 10 dbConflict).2.sync,
      x.status = SyncStatus.synced ∧ x.conflictData ≠ none := by
  decide

/-- C4 (amended): `conflictData` is set when a conflict is detected, but
resolution does not clear it — after resolving with `use_server` the
operation's status is `synced` and it still carries the `conflictData`
snapshot stored at detection time. -/
theorem C4_conflictData_persists (syncId : String) (now : Nat) (db : DB)
    (row : SyncRow) (c : EntityRecord)
    (hfind : db.sync.find? (fun x => x.id == syncId) = some row)
    (hst : row.status = SyncStatus.conflict)
    (hcd : row.conflictData = some c) :
    ∃ x ∈ (resolveConflict syncId Resolution.use_server none now db).2.sync,
      x.id = syncId ∧ x.status = SyncStatus.synced ∧ x.conflictData = some c := by
  have hres : resolveConflict syncId Resolution.use_server none now db =
      (true, updateSyncStatus syncId SyncStatus.synced none now db) := by
    unfold resolveConflict
    rw [hfind]
    simp [hst]
  rw [hres]
  have hmem := List.mem_of_find?_eq_some hfind
  have hiq := List.find?_some (p := fun x : SyncRow => x.id == syncId) hfind
  refine ⟨{ row with status := SyncStatus.synced, syncedAt := some now, conflictData := row.conflictData }, ?_, ?_, rfl, hcd⟩
  · simp only [updateSyncStatus, List.mem_map]
    refine ⟨row, hmem, ?_⟩
    simp [hiq]
  · simpa using hiq

/-- Witness for the amended C4 at the concrete conflicted state. -/
theorem C4_conflictData_persists_witness :
    ∃ x ∈ (resolveConflict "op1" Resolution.use_server none 10 dbConflict).2.sync,
      x.id = "op1" ∧ x.status = SyncStatus.synced ∧ x.conflictData = some bill1 :=
  C4_conflictData_persists "op1" 10 dbConflict rowConflict bill1 (by decide) rfl rfl

/-- C6: when the named operation does not exist, or exists but is not in
`conflict` status, `resolveConflict` returns `false` and the database is
completely unchanged, for every resolution policy. -/
theorem C6_resolve_noop (syncId : String) (resolution : Resolution)
    (mergedData : Option Payload) (now : Nat) (db : DB)
    (h : ∀ row ∈ db.sync, row.id = syncId → row.status ≠ SyncStatus.conflict) :
    resolveConflict syncId resolution mergedData now db = (false, db) := by
  unfold resolveConflict
  cases hfind : db.sync.find? (fun row => row.id == syncId) with
  | none => rfl
  | some row =>
      have hmem := List.mem_of_find?_eq_some hfind
      have hiq := List.find?_some (p := fun x : SyncRow => x.id == syncId) hfind
      have hne : row.status ≠ SyncStatus.conflict := h row hmem (by simpa using hiq)
      simp [hne]

/-- Witness for C6: resolving the pending (non-conflicted) operation is a
no-op returning `false`. -/
theorem C6_resolve_noop_witness :
    resolveConflict "op1" Resolution.use_server none 10 dbPending = (false, dbPending) :=
  C6_resolve_noop "op1" Resolution.use_server none 10 dbPending (by decide)

/-- C7: resolving a conflicted operation with `use_server` returns `true`,
sets the operation's status to `synced`, and leaves all four entity tables
(bills, customers, products, payments) unchanged. -/
theorem C7_use_server_frame (syncId : String) (now : Nat) (db : DB)
    (row : SyncRow)
    (hfind : db.sync.find? (fun x => x.id == syncId) = some row)
    (hst : row.status = SyncStatus.conflict) :
    (resolveConflict syncId Resolution.use_server none now db).1 = true ∧
    (resolveConflict syncId Resolution.use_server none now db).2.bills = db.bills ∧
    (resolveConflict syncId Resolution.use_server none now db).2.customers = db.customers ∧
    (resolveConflict syncId Resolution.use_server none now db).2.products = db.products ∧
    (resolveConflict syncId Resolution.use_server none now db).2.payments = db.payments ∧
    ∀ x ∈ (resolveConflict syncId Resolution.use_server none now db).2.sync,
      x.id = syncId → x.status = SyncStatus.synced := by
  have hres : resolveConflict syncId Resolution.use_server none now db =
      (true, updateSyncStatus syncId SyncStatus.synced none now db) := by
    unfold resolveConflict
    rw [hfind]
    simp [hst]
  rw [hres]
  exact ⟨rfl, rfl, rfl, rfl, rfl,
    fun x hx hid => updateSyncStatus_status_of_mem _ _ _ _ _ hx hid⟩

/-- Witness for C7 at the concrete conflicted state. -/
theorem C7_use_server_frame_witness :
    (resolveConflict "op1" Resolution.use_server none 10 dbConflict).1 = true ∧
    (resolveConflict "op1" Resolution.use_server none 10 dbConflict).2.bills =
      dbConflict.bills ∧
    (resolveConflict "op1" Resolution.use_server none 10 dbConflict).2.customers =
      dbConflict.customers ∧
    (resolveConflict "op1" Resolution.use_server none 10 dbConflict).2.products =
      dbConflict.products ∧
    (resolveConflict "op1" Resolution.use_server none 10 dbConflict).2.payments =
      dbConflict.payments ∧
    ∀ x ∈ (resolveConflict "op1" Resolution.use_server none 10 dbConflict).2.sync,
      x.id = "op1" → x.status = SyncStatus.synced :=
  C7_use_server_frame "op1" 10 dbConflict rowConflict (by decide) rfl

/-- C8: resolving a conflicted operation with `merge` but no `mergedData`
returns `false` and changes nothing — in particular the operation's status
remains `conflict`. -/
theorem C8_merge_requires_data (syncId : String) (now : Nat) (db : DB)
    (row : SyncRow)
    (hfind : db.sync.find? (fun x => x.id == syncId) = some row)
    (hst : row.status = SyncStatus.conflict) :
    resolveConflict syncId Resolution.merge none now db = (false, db) ∧
    ((resolveConflict syncId Resolution.merge none now db).2.sync.find?
        (fun x => x.id == syncId)).map SyncRow.status = some SyncStatus.conflict := by
  have hres : resolveConflict syncId Resolution.merge none now db = (false, db) := by
    unfold resolveConflict
    rw [hfind]
    simp [hst]
  refine ⟨hres, ?_⟩
  rw [hres]
  simp [hfind, hst]

/-- Witness for C8 at the concrete conflicted state. -/
theorem C8_merge_requires_data_witness :
    resolveConflict "op1" Resolution.merge none 10 dbConflict = (false, dbConflict) ∧
    ((resolveConflict "op1" Resolution.merge none 10 dbConflict).2.sync.find?
        (fun x => x.id == "op1")).map SyncRow.status = some SyncStatus.conflict :=
  C8_merge_requires_data "op1" 10 dbConflict rowConflict (by decide) rfl

/-- C9: `getPendingSyncOperations` returns exactly the operations with
status `pending` belonging to the given user (and company, when one is
supplied), ordered by enqueue time (`createdAt`) ascending. -/
theorem C9_listPending (u : Nat) (c : Option String) (db : DB) :
    getPendingSyncOperations u c db = (pendingRows u c db).map rowToOperation ∧
    (pendingRows u c db).Perm (db.sync.filter (rowMatches u c)) ∧
    List.Sorted (fun a b => a.createdAt ≤ b.createdAt) (pendingRows u c db) ∧
    ∀ row ∈ pendingRows u c db,
      row.status = SyncStatus.pending ∧ row.userId = u ∧
        ∀ cid, c = some cid → row.companyId = some cid := by
  refine ⟨rfl, List.perm_insertionSort _ _, List.sorted_insertionSort _ _, ?_⟩
  intro row hrow
  have hmem : row ∈ db.sync.filter (rowMatches u c) :=
    (List.perm_insertionSort (fun a b : SyncRow => a.createdAt ≤ b.createdAt)
      (db.sync.filter (rowMatches u c))).mem_iff.mp hrow
  have hmatch : rowMatches u c row = true := (List.mem_filter.mp hmem).2
  cases c with
  | none =>
      simp only [rowMatches, Bool.and_eq_true, beq_iff_eq] at hmatch
      exact ⟨hmatch.2, hmatch.1, fun cid hcid => by cases hcid⟩
  | some cid0 =>
      simp only [rowMatches, Bool.and_eq_true, beq_iff_eq] at hmatch
      exact ⟨hmatch.2, hmatch.1.1, fun cid hcid => by
        cases hcid
        exact hmatch.1.2⟩

end OfflineSync
